import Mathlib

/-!
# Verification of the retrieval-augmented answering pipeline of the Buddhist RAG app

This file embeds the core data model and operations of the Buddhist RAG
desktop application (document chunks with term anchors, the vector index
with similarity search, the hybrid retriever with domain-term boosting,
citation formatting, the answer generator with provider fallback, and the
renderer message-update logic from `renderer.js`) and proves the
functional-correctness and error-handling properties stated in the
specification.

The repository ships the Electron frontend (`renderer.js`,
`electron-app/src/main.js`, `setup-manager.js`) together with design
documents; the Python backend modules (`pdf_processor.py`,
`vector_store.py`, `rag_engine.py`, `llm_client.py`) are referenced by the
documentation and the frontend but their sources are not part of the
repository snapshot.  Backend operations are therefore modelled from the
specification (each such definition is marked `Modelled from the spec:`),
while the renderer-side definitions are translated directly from
`renderer.js`.
-/

namespace Rag

/-- A confidence-scored domain-term annotation attached to a chunk.
The renderer (`renderer.js`, `createAnchorsSection`) calls these
`buddhist_anchors`, with fields `term`, `category`, `confidence` and
`definition`. -/
structure TermAnchor where
  term : String
  category : String
  confidence : Rat
  defText : Option String
deriving DecidableEq, Repr

/-- A contiguous span of extracted text.  Modelled from the spec §3:
content, source document (filename), page number, a chunk-type tag, a set
of domain-term annotations (`anchors`), and a stable chunk id. -/
structure Chunk where
  content : String
  sourceDoc : String
  page : Nat
  chunkType : String
  anchors : List TermAnchor
  chunkId : Nat
deriving DecidableEq, Repr

/-- Modelled from the spec §3: an embedding record pairs a chunk with a
fixed-length numeric vector, persisted in the Vector Index. -/
structure EmbeddingRecord where
  vector : List Rat
  chunk : Chunk
deriving DecidableEq, Repr

/-- Modelled from the spec §4.3: squared euclidean distance between the
query embedding and a stored embedding. -/
def sqDist (q v : List Rat) : Rat :=
  ((q.zip v).map (fun p => (p.1 - p.2) * (p.1 - p.2))).sum

/-- Modelled from the spec §4.3: similarity of a query embedding and a
stored vector via an "equivalent normalized distance": `1 / (1 + d)` for
the squared distance `d`, which lies in `[0, 1]` by construction. -/
def similarity (q v : List Rat) : Rat :=
  1 / (1 + sqDist q v)

/-- A search candidate: the stored record, its insertion position in the
index, and its similarity score. -/
structure Scored where
  record : EmbeddingRecord
  pos : Nat
  score : Rat
deriving DecidableEq, Repr

/-- Ranking relation of search results: strictly larger score first, ties
broken by insertion order (smaller insertion position first). -/
def rankLe (a b : Scored) : Prop :=
  b.score < a.score ∨ (a.score = b.score ∧ a.pos ≤ b.pos)

instance : DecidableRel rankLe := fun a b => by
  unfold rankLe; infer_instance

instance : IsTotal Scored rankLe where
  total a b := by
    unfold rankLe
    rcases lt_trichotomy a.score b.score with h | h | h
    · exact Or.inr (Or.inl h)
    · rcases Nat.le_total a.pos b.pos with hp | hp
      · exact Or.inl (Or.inr ⟨h, hp⟩)
      · exact Or.inr (Or.inr ⟨h.symm, hp⟩)
    · exact Or.inl (Or.inl h)

instance : IsTrans Scored rankLe where
  trans a b c hab hbc := by
    unfold rankLe at *
    rcases hab with h1 | ⟨e1, p1⟩
    · rcases hbc with h2 | ⟨e2, p2⟩
      · exact Or.inl (h2.trans h1)
      · exact Or.inl (e2 ▸ h1)
    · rcases hbc with h2 | ⟨e2, p2⟩
      · exact Or.inl (by rw [e1]; exact h2)
      · exact Or.inr ⟨e1.trans e2, p1.trans p2⟩

/-- Score every record of the index against the query embedding,
remembering its insertion position (`i` is the position of the head). -/
def scoredFrom (q : List Rat) : Nat → List EmbeddingRecord → List Scored
  | _, [] => []
  | i, r :: rest => ⟨r, i, similarity q r.vector⟩ :: scoredFrom q (i + 1) rest

namespace VectorIndex

/-- Modelled from the spec §4.3 (`vector_store.py` is not in the
repository snapshot): `search(query, k)` scores every stored record
against the query embedding, sorts by similarity descending with ties
broken by insertion order, and returns the first `k`. -/
def search (index : List EmbeddingRecord) (q : List Rat) (k : Nat) :
    List Scored :=
  (List.insertionSort rankLe (scoredFrom q 0 index)).take k

/-- Modelled from the spec §4.3: `delete_by_document(filename)` removes
every embedding record (and hence chunk) of that document. -/
def deleteByDocument (index : List EmbeddingRecord) (filename : String) :
    List EmbeddingRecord :=
  index.filter (fun r => r.chunk.sourceDoc ≠ filename)

/-- Modelled from the spec §4.3: the per-document chunk count reported by
`stats()`. -/
def statsDocCount (index : List EmbeddingRecord) (filename : String) : Nat :=
  (index.filter (fun r => r.chunk.sourceDoc = filename)).length

/-- Modelled from the spec §4.3: the total chunk count reported by
`stats()`. -/
def statsTotal (index : List EmbeddingRecord) : Nat :=
  index.length

end VectorIndex

theorem sqDist_nonneg (q v : List Rat) : 0 ≤ sqDist q v := by
  apply List.sum_nonneg
  intro x hx
  rcases List.mem_map.1 hx with ⟨p, _, rfl⟩
  exact mul_self_nonneg _

theorem similarity_nonneg (q v : List Rat) : 0 ≤ similarity q v := by
  have h : (0 : Rat) < 1 + sqDist q v := by linarith [sqDist_nonneg q v]
  exact le_of_lt (div_pos one_pos h)

theorem similarity_le_one (q v : List Rat) : similarity q v ≤ 1 := by
  have h : (0 : Rat) < 1 + sqDist q v := by linarith [sqDist_nonneg q v]
  rw [similarity, div_le_one h]
  linarith [sqDist_nonneg q v]

theorem scoredFrom_mem {q : List Rat} {i : Nat} {l : List EmbeddingRecord}
    {s : Scored} (h : s ∈ scoredFrom q i l) :
    s.record ∈ l ∧ s.score = similarity q s.record.vector := by
  induction l generalizing i with
  | nil => simp [scoredFrom] at h
  | cons r rest ih =>
    rcases List.mem_cons.1 h with h | h
    · subst h; exact ⟨List.mem_cons_self _ _, rfl⟩
    · rcases ih h with ⟨h1, h2⟩
      exact ⟨List.mem_cons_of_mem _ h1, h2⟩

theorem search_mem {index : List EmbeddingRecord} {q : List Rat} {k : Nat}
    {s : Scored} (h : s ∈ VectorIndex.search index q k) :
    s.record ∈ index ∧ s.score = similarity q s.record.vector := by
  have h1 : s ∈ List.insertionSort rankLe (scoredFrom q 0 index) :=
    List.mem_of_mem_take h
  have h2 : s ∈ scoredFrom q 0 index :=
    (List.mem_insertionSort rankLe).1 h1
  exact scoredFrom_mem h2

theorem search_length_le (index : List EmbeddingRecord) (q : List Rat)
    (k : Nat) : (VectorIndex.search index q k).length ≤ k := by
  simp [VectorIndex.search]

theorem search_sorted (index : List EmbeddingRecord) (q : List Rat)
    (k : Nat) : (VectorIndex.search index q k).Pairwise rankLe := by
  have h := List.sorted_insertionSort rankLe (scoredFrom q 0 index)
  exact List.Pairwise.sublist (List.take_sublist k _) h

/-! ## Hybrid Retriever (spec §4.4, `rag_engine.py` `hybrid_search`) -/

/-- Modelled from the spec §4.4: errors of the Hybrid Retriever
(`rag_engine.py` is not in the repository snapshot). -/
inductive RetrievalError where
  | invalidArguments
deriving DecidableEq, Repr

/-- The number of distinct domain terms the Term Annotator previously
recorded for a chunk. -/
def termMatchCount (c : Chunk) : Nat :=
  ((c.anchors.map (fun a => a.term)).dedup).length

/-- Modelled from the spec §4.4 and the `hybrid_search` sketch in the
architecture document: the domain-term boost
`score * (1 + weight * term_match_count)`. -/
def boostedScore (weight : Rat) (s : Scored) : Rat :=
  s.score * (1 + weight * (termMatchCount s.record.chunk : Rat))

/-- The default boost weight: `0.1` in the architecture document
(`result.score *= (1 + 0.1 * term_count)`). -/
def defaultTermBoostWeight : Rat := 1 / 10

/-- The over-fetch factor of the Hybrid Retriever (spec §4.4 step 1:
"fetch `3k`"). -/
def overFetchFactor : Nat := 3

/-- Modelled from the spec §4.4: the Hybrid Retriever.  Fails immediately
with an invalid-argument error when `k ≤ 0`; otherwise over-fetches `3 k`
candidates from the Vector Index, applies the domain-term boost, re-sorts
by boosted score descending (ties by insertion order), and truncates to
`k`. -/
def hybridSearch (weight : Rat) (index : List EmbeddingRecord)
    (q : List Rat) (k : Int) : Except RetrievalError (List Scored) :=
  if k ≤ 0 then .error .invalidArguments
  else
    let pool := VectorIndex.search index q (overFetchFactor * k.toNat)
    let boosted := pool.map
      (fun s => { s with score := boostedScore weight s })
    .ok ((List.insertionSort rankLe boosted).take k.toNat)

theorem hybridSearch_mem {weight : Rat} {index : List EmbeddingRecord}
    {q : List Rat} {k : Int} {res : List Scored}
    (h : hybridSearch weight index q k = .ok res) {s : Scored}
    (hs : s ∈ res) :
    s.record ∈ index ∧
      s.score = similarity q s.record.vector *
        (1 + weight * (termMatchCount s.record.chunk : Rat)) := by
  by_cases hk : k ≤ 0
  · simp [hybridSearch, hk] at h
  · simp only [hybridSearch, hk, if_false] at h
    rcases Except.ok.inj h with rfl
    have h1 := List.mem_of_mem_take hs
    have h2 := (List.mem_insertionSort rankLe).1 h1
    rcases List.mem_map.1 h2 with ⟨t, ht, rfl⟩
    have h3 := search_mem ht
    refine ⟨h3.1, ?_⟩
    simp [boostedScore, h3.2]

/-! ## Citations (spec §4.4 step 4, §6; `_format_sources_for_response`) -/

/-- The fixed citation string format of the pipeline:
`"<filename>, page <page_number>"`. -/
def mkCitation (filename : String) (page : Nat) : String :=
  filename ++ ", page " ++ toString page

/-- Modelled from the spec §3 and the `_format_sources_for_response`
sketch in the architecture document: an ephemeral per-query source
citation (content excerpt, source file, page, citation string, similarity
score). -/
structure SourceCitation where
  content : String
  source_file : String
  page_number : Nat
  citation : String
  similarity_score : Rat
deriving DecidableEq, Repr

/-- Modelled from the architecture document sketch of
`_format_sources_for_response`: map each retrieved candidate to a
structured citation whose `citation` string is
`"<filename>, page <n>"`. -/
def formatSourcesForResponse (results : List Scored) : List SourceCitation :=
  results.map (fun s =>
    { content := s.record.chunk.content
      source_file := s.record.chunk.sourceDoc
      page_number := s.record.chunk.page
      citation := mkCitation s.record.chunk.sourceDoc s.record.chunk.page
      similarity_score := s.score })

theorem formatSources_citation {results : List Scored} {c : SourceCitation}
    (h : c ∈ formatSourcesForResponse results) :
    c.citation = c.source_file ++ ", page " ++ toString c.page_number := by
  rcases List.mem_map.1 h with ⟨s, _, rfl⟩
  rfl

/-! ## Answer Generator (spec §4.5, `llm_client.py` / `rag_engine.py`) -/

/-- Modelled from the spec §7: provider failures that trigger the
fallback policy. -/
inductive ProviderError where
  | timeout
  | authFailure
  | rateLimit
  | malformedResponse
deriving DecidableEq, Repr

/-- A language-model provider, modelled as a function from the prompt to
either a generated answer or a provider error (spec §9: capability
interface `generate(prompt, params) -> text | error`). -/
def Provider : Type := String → Except ProviderError String

/-- The response of a query: the prose answer plus the citation list
actually used (spec §4.5). -/
structure QueryResponse where
  answer : String
  sources : List SourceCitation
deriving DecidableEq, Repr

/-- Terminal states of the per-query state machine (spec §4.5):
`SUCCEEDED`, `FAILED_RETRY_EXHAUSTED` (a single user-facing error), and
the no-sources case which still succeeds with an explicit statement. -/
inductive QueryOutcome where
  | succeeded (resp : QueryResponse)
  | failed (userMessage : String)
deriving DecidableEq, Repr

/-- Modelled from the spec §4.5 step 1: the fixed response generated when
no citations were retrieved. -/
def noSourcesAnswer : String :=
  "No relevant source material was found in your library for this question. Please upload relevant texts and try again."

/-- Modelled from the spec §4.5 step 3 and §7: the single user-facing
error surfaced when the current provider and the fallback both fail. -/
def providerFailureMessage : String :=
  "The language model provider is currently unavailable. Please try again later."

/-- Modelled from the spec §4.5 step 2: the grounded prompt embedding the
system instruction, the retrieved passages tagged with their citations,
and the question. -/
def buildPrompt (question : String) (citations : List SourceCitation) :
    String :=
  "You are a respectful assistant for Buddhist teachings. Answer from the cited passages and acknowledge uncertainty."
    ++ String.join (citations.map
        (fun c => " [" ++ c.citation ++ "] " ++ c.content))
    ++ " Question: " ++ question

/-- Modelled from the spec §4.5 steps 1 and 3: dispatch to the current
provider; on failure, if fallback is enabled, retry exactly once against
the designated fallback provider; if that also fails, surface a single
user-facing error.  The second component counts provider calls. -/
def dispatchGenerate (primary fallbackProvider : Provider)
    (fallbackEnabled : Bool) (question : String)
    (citations : List SourceCitation) : QueryOutcome × Nat :=
  if citations.isEmpty then
    (.succeeded ⟨noSourcesAnswer, []⟩, 0)
  else
    let prompt := buildPrompt question citations
    match primary prompt with
    | .ok answer => (.succeeded ⟨answer, citations⟩, 1)
    | .error _ =>
      if fallbackEnabled then
        match fallbackProvider prompt with
        | .ok answer => (.succeeded ⟨answer, citations⟩, 2)
        | .error _ => (.failed providerFailureMessage, 2)
      else
        (.failed providerFailureMessage, 1)

/-- Modelled from the spec §4.5 and §6: the `query` operation.  Retrieval
runs first (no query may skip RETRIEVING); retrieval errors propagate;
the retrieved candidates are formatted into citations and handed to the
generator. -/
def processQuery (weight : Rat) (primary fallbackProvider : Provider)
    (fallbackEnabled : Bool) (index : List EmbeddingRecord)
    (question : String) (q : List Rat) (k : Int) :
    Except RetrievalError (QueryOutcome × Nat) :=
  match hybridSearch weight index q k with
  | .error e => .error e
  | .ok results =>
    .ok (dispatchGenerate primary fallbackProvider fallbackEnabled
      question (formatSourcesForResponse results))

theorem dispatchGenerate_sources {primary fallbackProvider : Provider}
    {fallbackEnabled : Bool} {question : String}
    {citations : List SourceCitation} {resp : QueryResponse}
    (h : (dispatchGenerate primary fallbackProvider fallbackEnabled
        question citations).1 = .succeeded resp) :
    resp.sources = [] ∨ resp.sources = citations := by
  by_cases hc : citations.isEmpty
  · simp [dispatchGenerate, hc] at h
    exact Or.inl (congrArg QueryResponse.sources h.symm)
  · simp only [dispatchGenerate, hc, if_false] at h
    rcases hp : primary (buildPrompt question citations) with e | a
    · rw [hp] at h
      cases hf : fallbackEnabled
      · simp [hf] at h
      · simp only [hf, if_true] at h
        rcases hq : fallbackProvider (buildPrompt question citations)
          with e2 | a2
        · rw [hq] at h; simp at h
        · rw [hq] at h
          simp at h
          exact Or.inr (congrArg QueryResponse.sources h.symm)
    · rw [hp] at h
      simp at h
      exact Or.inr (congrArg QueryResponse.sources h.symm)

theorem processQuery_sources {weight : Rat}
    {primary fallbackProvider : Provider} {fallbackEnabled : Bool}
    {index : List EmbeddingRecord} {question : String} {q : List Rat}
    {k : Int} {out : QueryOutcome} {n : Nat} {resp : QueryResponse}
    (h : processQuery weight primary fallbackProvider fallbackEnabled
        index question q k = .ok (out, n))
    (hout : out = .succeeded resp) {c : SourceCitation}
    (hc : c ∈ resp.sources) :
    ∃ rec ∈ index, c.content = rec.chunk.content ∧
      c.source_file = rec.chunk.sourceDoc ∧ c.page_number = rec.chunk.page ∧
      c.citation = mkCitation rec.chunk.sourceDoc rec.chunk.page := by
  subst hout
  rcases hres : hybridSearch weight index q k with e | results
  · simp [processQuery, hres] at h
  · simp only [processQuery, hres] at h
    rcases Except.ok.inj h with h
    have h1 : (dispatchGenerate primary fallbackProvider fallbackEnabled
        question (formatSourcesForResponse results)).1
        = .succeeded resp := by
      rw [h]
    rcases dispatchGenerate_sources h1 with hs | hs
    · rw [hs] at hc; simp at hc
    · rw [hs] at hc
      rcases List.mem_map.1 hc with ⟨s, hsmem, rfl⟩
      have h2 := hybridSearch_mem hres hsmem
      exact ⟨s.record, h2.1, rfl, rfl, rfl, rfl⟩

/-! ## Term Annotator (spec §4.2, `pdf_processor.py`) -/

/-- Case-insensitive substring test used by the pattern heuristics. -/
def hasSub (s pat : String) : Bool :=
  s.toLower.containsSubstr pat.toSubstring

/-- Modelled from the spec §4.2: an entry of the curated domain
vocabulary table (term, category, optional definition, table priority). -/
structure VocabEntry where
  term : String
  category : String
  defText : Option String
  priority : Nat
deriving DecidableEq, Repr

/-- Modelled from the spec §4.2 and the architecture document: the curated
domain vocabulary (Pali, Sanskrit and English Buddhist terms). -/
def vocabulary : List VocabEntry :=
  [⟨"four noble truths", "concept", some "the foundational teaching on suffering and its cessation", 3⟩,
   ⟨"noble eightfold path", "concept", some "the path of practice leading to liberation", 3⟩,
   ⟨"mindfulness", "practice", some "sustained non-judgmental attention", 2⟩,
   ⟨"meditation", "practice", none, 2⟩,
   ⟨"dharma", "concept", some "the teachings of the Buddha", 1⟩,
   ⟨"karma", "concept", some "intentional action and its results", 1⟩,
   ⟨"nirvana", "concept", some "the cessation of suffering", 1⟩,
   ⟨"sutta", "concept", none, 1⟩,
   ⟨"sangha", "concept", some "the community of practitioners", 1⟩,
   ⟨"buddha", "figure", some "the awakened one", 1⟩]

/-- Modelled from the spec §4.2: confidence derived from match
specificity, a deterministic function of match length (word count) and
table priority, clamped into `[0, 1]`. -/
def termConfidence (e : VocabEntry) : Rat :=
  min 1 ((((e.term.splitOn " ").length * 25 + e.priority * 10 : Nat) : Rat) / 100)

/-- Modelled from the spec §4.2: given chunk text, return the
confidence-scored annotations for every vocabulary term matched
case-insensitively in the text.  Purely a function of the text. -/
def annotateText (text : String) : List TermAnchor :=
  vocabulary.filterMap (fun e =>
    if hasSub text e.term then
      some ⟨e.term, e.category, termConfidence e, e.defText⟩
    else none)

/-- Modelled from the spec §4.2: the Term Annotator enriches a chunk with
its annotations and touches nothing else. -/
def annotateChunk (c : Chunk) : Chunk :=
  { c with anchors := annotateText c.content }

/-! ## Document Segmenter (spec §4.1, `pdf_processor.py`) -/

/-- Modelled from the spec §4.1: the segmenter configuration (maximum
chunk size and the minimum meaningful-content threshold). -/
structure SegmenterConfig where
  maxChunkSize : Nat
  minChunkSize : Nat
deriving DecidableEq, Repr

/-- Raw extracted text paired with its page number (spec §4.1: "extracted
raw text paired with per-page boundaries"). -/
structure PageText where
  page : Nat
  text : String
deriving DecidableEq, Repr

/-- Modelled from the spec §7: ingestion failure for input with no
extractable text. -/
inductive IngestionError where
  | noExtractableText
deriving DecidableEq, Repr

/-- Greedily pack sentences into chunks of at most `maxSize` characters,
never splitting mid-sentence (spec §4.1). -/
def packSentences (maxSize : Nat) : List String → String → List String
  | [], acc => if acc = "" then [] else [acc]
  | s :: rest, acc =>
    let candidate := if acc = "" then s else acc ++ ". " ++ s
    if acc = "" ∨ candidate.length ≤ maxSize then
      packSentences maxSize rest candidate
    else
      acc :: packSentences maxSize rest s

/-- Modelled from the spec §4.1: if a section exceeds the maximum chunk
size, split it further at the nearest sentence boundary. -/
def splitLong (maxSize : Nat) (sec : String) : List String :=
  if sec.length ≤ maxSize then [sec]
  else packSentences maxSize (sec.splitOn ". ") ""

/-- Modelled from the spec §4.1: classify a chunk into a small closed
set of chunk-type tags by keyword heuristics, defaulting to "general". -/
def classifyChunk (t : String) : String :=
  if hasSub t "sutta" then "sutta"
  else if hasSub t "commentary" then "commentary"
  else if hasSub t "said" then "dialogue"
  else if hasSub t "practice" then "teaching"
  else "general"

/-- Segment one page: sections are delimited by paragraph breaks, long
sections are split at sentence boundaries, and every piece records its
starting page (spec §4.1). -/
def segmentPage (cfg : SegmenterConfig) (p : PageText) :
    List (String × Nat) :=
  (((p.text.splitOn "\n\n").map (splitLong cfg.maxChunkSize)).flatten).map
    (fun c => (c, p.page))

/-- Number the kept pieces and build the chunk records. -/
def buildChunks (filename : String) : Nat → List (String × Nat) → List Chunk
  | _, [] => []
  | i, c :: rest =>
    ⟨c.1, filename, c.2, classifyChunk c.1, [], i⟩ ::
      buildChunks filename (i + 1) rest

/-- Modelled from the spec §4.1: the Document Segmenter.  Sections are
found at paragraph breaks, oversized sections are split at sentence
boundaries, chunks below the minimum meaningful-content threshold are
discarded, each kept chunk is classified and numbered, and image-only or
corrupted input (nothing extractable) is a failure. -/
def segmentDocument (cfg : SegmenterConfig) (filename : String)
    (pages : List PageText) : Except IngestionError (List Chunk) :=
  let pieces := (pages.map (segmentPage cfg)).flatten
  let kept := pieces.filter (fun c => cfg.minChunkSize ≤ c.1.length)
  if kept.isEmpty then .error .noExtractableText
  else .ok (buildChunks filename 0 kept)

/-! ## Renderer (`renderer.js`, in the repository)

The DOM state of one assistant chat message is modelled by the formatted
text of its `.message-text` node together with the list of extra sections
appended to its `.message-content` node.  `formatMessageContent` performs
only string-to-string markdown-like rewriting and is irrelevant to the
properties below, so the renderer operations are parametrised by it. -/

/-- A source entry of a `/query` response as consumed by
`createSourcesSection` (fields `citation`, `similarity_score`,
`content`). -/
structure RenderedSource where
  citation : String
  similarity_score : Rat
  content : String
deriving DecidableEq, Repr

/-- The modelled DOM state of an assistant message: the inner HTML of its
`.message-text` node and the sections appended to `.message-content`. -/
structure MessageElement where
  messageText : String
  sections : List String
deriving DecidableEq, Repr

/-- From `renderer.js` `createSourcesSection`: one `source-item` block,
showing the citation, the rounded percentage match, and the content
excerpt truncated to 200 characters with an ellipsis. -/
def sourceItemHtml (s : RenderedSource) : String :=
  "<div class=source-item><span class=source-citation>" ++ s.citation
    ++ "</span><span class=similarity-score>"
    ++ toString (round (s.similarity_score * 100)) ++ "% match</span>"
    ++ "<div class=source-content>" ++ s.content.take 200
    ++ (if 200 < s.content.length then "..." else "") ++ "</div></div>"

/-- From `renderer.js` `createSourcesSection`: the Sources section built
from a non-empty source list. -/
def createSourcesSection (sources : List RenderedSource) : String :=
  "<div class=sources-section><div class=sources-header>Sources</div>"
    ++ String.join (sources.map sourceItemHtml) ++ "</div>"

/-- From `renderer.js` `updateAssistantMessage`: set the message text to
the formatted answer, and append a Sources section exactly when `sources`
is present (`sources &&`) and non-empty (`sources.length > 0`). -/
def updateAssistantMessage (fmt : String → String) (m : MessageElement)
    (answer : String) (sources : Option (List RenderedSource)) :
    MessageElement :=
  let m1 : MessageElement := ⟨fmt answer, m.sections⟩
  match sources with
  | some ss =>
    if 0 < ss.length then
      ⟨m1.messageText, m1.sections ++ [createSourcesSection ss]⟩
    else m1
  | none => m1

/-- From `renderer.js` `sendMessage`: the fixed apology text used when a
failed `/query` response carries no error detail. -/
def apologyText : String :=
  "I apologize, but I encountered an error processing your question. Please try again."

/-- The outcome of the `/query` HTTP request as seen by `sendMessage`:
either a response body with `answer` and (possibly absent) `sources`, or
a failure with an optional `detail` string. -/
inductive QueryHttp where
  | ok (answer : String) (sources : Option (List RenderedSource))
  | err (detail : Option String)
deriving DecidableEq, Repr

/-- From `renderer.js` `sendMessage`:
`error.response?.data?.detail || apology` — JavaScript `||` falls through
both on an absent detail and on an empty-string detail. -/
def errorMessageOf (detail : Option String) : String :=
  match detail with
  | some d => if d = "" then apologyText else d
  | none => apologyText

/-- From `renderer.js` `sendMessage`: on success the assistant message is
updated with the answer and the response sources; on error it is updated
with the error detail (or the apology) and an empty sources array
(`this.updateAssistantMessage(assistantMessage, errorMessage, [])`). -/
def handleQueryResponse (fmt : String → String) (m : MessageElement)
    (r : QueryHttp) : MessageElement :=
  match r with
  | .ok answer sources => updateAssistantMessage fmt m answer sources
  | .err detail =>
    updateAssistantMessage fmt m (errorMessageOf detail) (some [])

/-! ## Concrete fixtures used by the witnesses -/

/-- A sample dialogue chunk of a sutta collection. -/
def exChunkA : Chunk :=
  ⟨"The Buddha said that mindfulness is the direct path.",
   "majjhima_nikaya.pdf", 42, "dialogue",
   [⟨"mindfulness", "practice", 1 / 2, none⟩], 0⟩

/-- A sample commentary chunk of a second document. -/
def exChunkB : Chunk :=
  ⟨"Commentary on karma and its fruit.", "visuddhimagga.pdf", 7,
   "commentary", [], 1⟩

/-- A sample two-document index. -/
def exIndex : List EmbeddingRecord :=
  [⟨[1, 0], exChunkA⟩, ⟨[0, 1], exChunkB⟩]

/-- A sample query embedding. -/
def exQuery : List Rat := [1, 0]

/-- A provider that always generates an answer. -/
def exProviderOk : Provider := fun _ => .ok "Mindfulness is the direct path."

/-- A provider that always times out. -/
def exProviderFail : Provider := fun _ => .error .timeout

/-- The hybrid retrieval result on the sample index. -/
def exHybridRes : List Scored :=
  (hybridSearch defaultTermBoostWeight exIndex exQuery 1).toOption.getD []

/-- A sample page list for the segmenter. -/
def exPages : List PageText :=
  [⟨1, "The sutta opens with a teaching on mindfulness and calm abiding."⟩,
   ⟨2, "Commentary on the practice of concentration follows here."⟩]

/-- A sample segmenter configuration. -/
def exConfig : SegmenterConfig := ⟨1200, 20⟩

/-- A sample retrieval pool for citation formatting. -/
def exResults : List Scored := [⟨⟨[1, 0], exChunkA⟩, 0, 1⟩]

/-! ## The claims -/

/-- Claim C1: for every query embedding and every positive `k`, `search`
returns at most `k` results, each with a similarity score in the closed
interval `[0, 1]`, sorted by score in non-increasing order with ties
broken by insertion order. -/
theorem claim1_search_at_most_k_unit_scores_sorted
    (index : List EmbeddingRecord) (q : List Rat) (k : Nat)
    (_hk : 0 < k) :
    (VectorIndex.search index q k).length ≤ k
    ∧ (∀ s ∈ VectorIndex.search index q k, 0 ≤ s.score ∧ s.score ≤ 1)
    ∧ (VectorIndex.search index q k).Pairwise
        (fun a b => b.score ≤ a.score ∧
          (a.score = b.score → a.pos ≤ b.pos)) := by
  refine ⟨search_length_le _ _ _, ?_, ?_⟩
  · intro s hs
    rw [(search_mem hs).2]
    exact ⟨similarity_nonneg _ _, similarity_le_one _ _⟩
  · refine (search_sorted index q k).imp ?_
    intro a b hab
    rcases hab with h | ⟨he, hp⟩
    · exact ⟨le_of_lt h, fun he2 => absurd (he2 ▸ h) (lt_irrefl _)⟩
    · exact ⟨le_of_eq he.symm, fun _ => hp⟩

/-- Witness for C1 at the sample index with `k = 1`. -/
theorem claim1_witness :
    0 < 1
    ∧ ((VectorIndex.search exIndex exQuery 1).length ≤ 1
      ∧ (∀ s ∈ VectorIndex.search exIndex exQuery 1,
          0 ≤ s.score ∧ s.score ≤ 1)
      ∧ (VectorIndex.search exIndex exQuery 1).Pairwise
          (fun a b => b.score ≤ a.score ∧
            (a.score = b.score → a.pos ≤ b.pos))) :=
  ⟨Nat.one_pos,
    claim1_search_at_most_k_unit_scores_sorted exIndex exQuery 1
      Nat.one_pos⟩

/-- Claim C2: a query against an empty index succeeds with the fixed
answer explicitly stating that no relevant source material was found and
an empty citation list, and in general every citation of a successful
answer was retrieved from the index (no fabricated citations). -/
theorem claim2_empty_index_answer_and_no_fabrication
    (weight : Rat) (primary fallbackProvider : Provider)
    (fallbackEnabled : Bool) (question : String) (q : List Rat)
    (k : Int) (hk : 0 < k) :
    processQuery weight primary fallbackProvider fallbackEnabled []
        question q k = .ok (.succeeded ⟨noSourcesAnswer, []⟩, 0)
    ∧ (∃ pre post, noSourcesAnswer =
        pre ++ "No relevant source material was found" ++ post)
    ∧ (∀ index out n resp,
        processQuery weight primary fallbackProvider fallbackEnabled
          index question q k = .ok (out, n) →
        out = .succeeded resp →
        ∀ c ∈ resp.sources, ∃ rec ∈ index,
          c.content = rec.chunk.content ∧
          c.source_file = rec.chunk.sourceDoc ∧
          c.page_number = rec.chunk.page) := by
  have hk2 : ¬ k ≤ 0 := not_le.mpr hk
  refine ⟨?_, ⟨"", ?_, ?_⟩, ?_⟩
  · simp [processQuery, hybridSearch, hk2, VectorIndex.search, scoredFrom,
      formatSourcesForResponse, dispatchGenerate]
  · exact " in your library for this question. Please upload relevant texts and try again."
  · rfl
  · intro index out n resp h hout c hc
    rcases processQuery_sources h hout hc with ⟨rec, hrec, h1, h2, h3, _⟩
    exact ⟨rec, hrec, h1, h2, h3⟩

/-- Witness for C2 with the sample providers and `k = 1`. -/
theorem claim2_witness :
    (0 : Int) < 1
    ∧ (processQuery defaultTermBoostWeight exProviderOk exProviderFail
          true [] "What is mindfulness?" exQuery 1
        = .ok (.succeeded ⟨noSourcesAnswer, []⟩, 0)
      ∧ (∃ pre post, noSourcesAnswer =
          pre ++ "No relevant source material was found" ++ post)
      ∧ (∀ index out n resp,
          processQuery defaultTermBoostWeight exProviderOk exProviderFail
            true index "What is mindfulness?" exQuery 1 = .ok (out, n) →
          out = .succeeded resp →
          ∀ c ∈ resp.sources, ∃ rec ∈ index,
            c.content = rec.chunk.content ∧
            c.source_file = rec.chunk.sourceDoc ∧
            c.page_number = rec.chunk.page)) :=
  ⟨by decide,
    claim2_empty_index_answer_and_no_fabrication defaultTermBoostWeight
      exProviderOk exProviderFail true "What is mindfulness?" exQuery 1
      (by decide)⟩

/-- Claim C3: deleting a document empties its per-document `stats()`
count, no subsequent search returns one of its chunks, and the deletion
is exact: a record survives if and only if it was in the index and does
not belong to the deleted document (all-or-nothing). -/
theorem claim3_delete_document_complete
    (index : List EmbeddingRecord) (filename : String) :
    VectorIndex.statsDocCount
        (VectorIndex.deleteByDocument index filename) filename = 0
    ∧ (∀ q k s, s ∈ VectorIndex.search
          (VectorIndex.deleteByDocument index filename) q k →
        s.record.chunk.sourceDoc ≠ filename)
    ∧ (∀ r, r ∈ VectorIndex.deleteByDocument index filename ↔
        (r ∈ index ∧ r.chunk.sourceDoc ≠ filename)) := by
  have hmem : ∀ r ∈ VectorIndex.deleteByDocument index filename,
      r.chunk.sourceDoc ≠ filename := by
    intro r hr
    simpa using (List.mem_filter.1 hr).2
  refine ⟨?_, ?_, ?_⟩
  · rw [VectorIndex.statsDocCount, List.length_eq_zero,
      List.filter_eq_nil_iff]
    intro r hr
    simpa using hmem r hr
  · intro q k s hs
    exact hmem s.record (search_mem hs).1
  · intro r
    simp [VectorIndex.deleteByDocument, List.mem_filter]

/-- Claim C4: the generator makes at most two provider calls (never an
unbounded retry loop); when the primary fails and fallback is enabled it
retries exactly once; when the retry also fails it surfaces the single
user-facing failure message; and a successful answer always comes from a
provider (the no-sources answer aside), never a fabricated partial
result. -/
theorem claim4_fallback_retry_once
    (primary fallbackProvider : Provider) (fallbackEnabled : Bool)
    (question : String) (citations : List SourceCitation) :
    (dispatchGenerate primary fallbackProvider fallbackEnabled question
        citations).2 ≤ 2
    ∧ (∀ e, citations ≠ [] →
        primary (buildPrompt question citations) = .error e →
        fallbackEnabled = true →
        (dispatchGenerate primary fallbackProvider fallbackEnabled
          question citations).2 = 2)
    ∧ (∀ e1 e2, citations ≠ [] →
        primary (buildPrompt question citations) = .error e1 →
        fallbackEnabled = true →
        fallbackProvider (buildPrompt question citations) = .error e2 →
        (dispatchGenerate primary fallbackProvider fallbackEnabled
          question citations).1 = .failed providerFailureMessage)
    ∧ (∀ resp,
        (dispatchGenerate primary fallbackProvider fallbackEnabled
          question citations).1 = .succeeded resp →
        (citations = [] ∧ resp.answer = noSourcesAnswer)
        ∨ primary (buildPrompt question citations) = .ok resp.answer
        ∨ (fallbackEnabled = true ∧
            fallbackProvider (buildPrompt question citations)
              = .ok resp.answer)) := by
  by_cases hc : citations.isEmpty
  · have hc2 : citations = [] := List.isEmpty_iff.1 hc
    refine ⟨?_, ?_, ?_, ?_⟩
    · simp [dispatchGenerate, hc]
    · intro e hne; exact absurd hc2 hne
    · intro e1 e2 hne; exact absurd hc2 hne
    · intro resp h
      simp [dispatchGenerate, hc] at h
      exact Or.inl ⟨hc2, congrArg QueryResponse.answer h.symm⟩
  · refine ⟨?_, ?_, ?_, ?_⟩
    · simp only [dispatchGenerate, hc, if_false]
      rcases primary (buildPrompt question citations) with e | a
      · cases fallbackEnabled
        · simp
        · rcases fallbackProvider (buildPrompt question citations)
            with e2 | a2 <;> simp
      · simp
    · intro e _ hp hf
      simp only [dispatchGenerate, hc, if_false, hp, hf, if_true]
      rcases fallbackProvider (buildPrompt question citations)
        with e2 | a2 <;> simp
    · intro e1 e2 _ hp hf hq
      simp [dispatchGenerate, hc, hp, hf, hq]
    · intro resp h
      simp only [dispatchGenerate, hc, if_false] at h
      rcases hp : primary (buildPrompt question citations) with e | a
      · rw [hp] at h
        cases hf : fallbackEnabled
        · rw [hf] at h; simp at h
        · rw [hf] at h
          simp only [if_true] at h
          rcases hq : fallbackProvider (buildPrompt question citations)
            with e2 | a2
          · rw [hq] at h; simp at h
          · rw [hq] at h
            simp at h
            refine Or.inr (Or.inr ⟨rfl, ?_⟩)
            rw [← h]
      · rw [hp] at h
        simp at h
        refine Or.inr (Or.inl ?_)
        rw [← h]

/-- Claim C5: every result of the hybrid retriever carries the boosted
score `s * (1 + weight * term_match_count)`, where `s` is the base
similarity of the query and the chunk embedding and `term_match_count`
is the number of distinct recorded domain terms; the default weight is
`0.1`. -/
theorem claim5_hybrid_boost_formula
    (weight : Rat) (index : List EmbeddingRecord) (q : List Rat)
    (k : Int) (res : List Scored)
    (h : hybridSearch weight index q k = .ok res) :
    defaultTermBoostWeight = 1 / 10
    ∧ ∀ s ∈ res, s.score = similarity q s.record.vector *
        (1 + weight * (termMatchCount s.record.chunk : Rat)) :=
  ⟨rfl, fun _ hs => (hybridSearch_mem h hs).2⟩

/-- Witness for C5 on the sample index with the default weight. -/
theorem claim5_witness :
    hybridSearch defaultTermBoostWeight exIndex exQuery 1
      = .ok exHybridRes
    ∧ (defaultTermBoostWeight = 1 / 10
      ∧ ∀ s ∈ exHybridRes, s.score = similarity exQuery s.record.vector *
          (1 + defaultTermBoostWeight *
            (termMatchCount s.record.chunk : Rat))) :=
  ⟨rfl,
    claim5_hybrid_boost_formula defaultTermBoostWeight exIndex exQuery 1
      exHybridRes rfl⟩

/-- Claim C6: every citation string produced by the pipeline — by
`_format_sources_for_response` directly, and in the sources of every
successful query response — has exactly the fixed format
`"<filename>, page <page_number>"`. -/
theorem claim6_citation_format (results : List Scored) :
    (∀ c ∈ formatSourcesForResponse results,
      c.citation = c.source_file ++ ", page " ++ toString c.page_number)
    ∧ (∀ (weight : Rat) (primary fallbackProvider : Provider)
        (fallbackEnabled : Bool) (index : List EmbeddingRecord)
        (question : String) (q : List Rat) (k : Int)
        (out : QueryOutcome) (n : Nat) (resp : QueryResponse),
        processQuery weight primary fallbackProvider fallbackEnabled
          index question q k = .ok (out, n) →
        out = .succeeded resp →
        ∀ c ∈ resp.sources,
          c.citation = c.source_file ++ ", page "
            ++ toString c.page_number) := by
  constructor
  · intro c hc
    exact formatSources_citation hc
  · intro weight primary fallbackProvider fallbackEnabled index question
      q k out n resp h hout c hc
    rcases processQuery_sources h hout hc with
      ⟨rec, _, _, h2, h3, h4⟩
    rw [h4, mkCitation, h2, h3]

/-- Claim C7: the Document Segmenter is deterministic — two runs on
identical input pages under the same configuration (and filename) yield
identical ordered chunk sequences with identical boundaries. -/
theorem claim7_segmenter_deterministic
    (cfg1 cfg2 : SegmenterConfig) (f1 f2 : String)
    (pages1 pages2 : List PageText) (hp : pages1 = pages2)
    (hc : cfg1 = cfg2) (hf : f1 = f2) :
    segmentDocument cfg1 f1 pages1 = segmentDocument cfg2 f2 pages2 := by
  subst hp; subst hc; subst hf; rfl

/-- Witness for C7 on the sample pages. -/
theorem claim7_witness :
    exPages = exPages ∧ exConfig = exConfig ∧ "a.pdf" = "a.pdf"
    ∧ segmentDocument exConfig "a.pdf" exPages
      = segmentDocument exConfig "a.pdf" exPages :=
  ⟨rfl, rfl, rfl,
    claim7_segmenter_deterministic exConfig exConfig "a.pdf" "a.pdf"
      exPages exPages rfl rfl rfl⟩

/-- Claim C8: the Term Annotator never modifies chunk content, running
it twice equals running it once (idempotent), and the annotation list
computed from the annotated chunk text is identical to the one computed
from the original text. -/
theorem claim8_annotator_idempotent (c : Chunk) :
    (annotateChunk c).content = c.content
    ∧ annotateChunk (annotateChunk c) = annotateChunk c
    ∧ annotateText (annotateChunk c).content = annotateText c.content := by
  refine ⟨rfl, ?_, rfl⟩
  simp [annotateChunk]

/-- Claim C9: the Hybrid Retriever fails immediately with an
invalid-argument error for `k ≤ 0`, and returns an empty result set (not
an error) on an empty index with `k > 0`. -/
theorem claim9_retriever_edge_cases
    (weight : Rat) (index : List EmbeddingRecord) (q : List Rat)
    (k : Int) :
    (k ≤ 0 → hybridSearch weight index q k
      = .error .invalidArguments)
    ∧ (0 < k → hybridSearch weight ([] : List EmbeddingRecord) q k
      = .ok []) := by
  constructor
  · intro hk
    simp [hybridSearch, hk]
  · intro hk
    have hk2 : ¬ k ≤ 0 := not_le.mpr hk
    simp [hybridSearch, hk2, VectorIndex.search, scoredFrom]

/-- Claim C10: the renderer appends a Sources section to an assistant
message exactly when the response's sources list is present and
non-empty; the message text is always the formatted answer; and a failed
`/query` request yields the error detail (or the fixed apology when the
detail is absent) with an empty sources list, so no citation is ever
displayed for a failed query. -/
theorem claim10_sources_section_iff_nonempty
    (fmt : String → String) (m : MessageElement) (answer : String)
    (sources : Option (List RenderedSource)) (detail : Option String) :
    ((updateAssistantMessage fmt m answer sources).sections ≠ m.sections
      ↔ ∃ ss, sources = some ss ∧ ss ≠ [])
    ∧ (updateAssistantMessage fmt m answer sources).messageText
      = fmt answer
    ∧ handleQueryResponse fmt m (QueryHttp.err detail)
      = ⟨fmt (errorMessageOf detail), m.sections⟩
    ∧ errorMessageOf none = apologyText := by
  refine ⟨?_, ?_, ?_, rfl⟩
  · cases sources with
    | none =>
      simp [updateAssistantMessage]
    | some ss =>
      by_cases hss : 0 < ss.length
      · have hne : ss ≠ [] := by
          intro h; rw [h] at hss; simp at hss
        simp only [updateAssistantMessage, hss, if_true]
        constructor
        · intro _; exact ⟨ss, rfl, hne⟩
        · intro _ h
          have := congrArg List.length h
          simp at this
      · have hnil : ss = [] := by
          cases ss with
          | nil => rfl
          | cons a l => exact absurd (Nat.succ_pos _) hss
        subst hnil
        simp [updateAssistantMessage]
  · cases sources with
    | none => rfl
    | some ss =>
      by_cases hss : 0 < ss.length <;>
        simp [updateAssistantMessage, hss]
  · simp [handleQueryResponse, updateAssistantMessage]

end Rag
